import Mathlib

/-!
Shallow embedding of the GitLeaker scanning engine.

Source of truth: the repository's scan route (`POST`, `GitLabAPI`,
`scanFiles`, `findLineNumber`) and `utils/scanner.ts` (`scanForSecrets`).

The JavaScript regular expressions of the source are embedded as an explicit
regex AST (`Regex`) with a backtracking matcher that follows JavaScript
semantics for the constructs the source uses: ordered alternation
(leftmost alternative first), greedy quantifiers over character classes,
leftmost-first search (`String.prototype.match` without the `g` flag returns
the leftmost match; with `g` it returns the list of successive non-overlapping
leftmost matches).  The `i` flag is modelled by case-insensitive character
classes; `.` excludes line terminators as in JavaScript; `\s` and `\w` use
the JavaScript character sets.

The external world (the GitLab HTTP API reached through `fetch`) is a
parameter: a `GitLabAPI` value records, for each of the three endpoints the
route calls, either the decoded body (`Except.ok`) or a thrown error
(`Except.error ()`, covering non-2xx responses and decode failures, both of
which `GitLabAPI.fetch` surfaces as exceptions).
-/

namespace Gitleaker

/-! ## Regex AST and JavaScript-style matching -/

/-- Regular-expression shapes used by the source's patterns.  Quantifiers in
the source (`*`, `+`, `?`, `{0,3}`, `{16}`, `{36}`) are applied only to
single character classes, so the star constructor is specialised to a class;
the bounded forms are derived below. -/
inductive Regex where
  | emp : Regex
  | cls : (Char → Bool) → Regex
  | seq : Regex → Regex → Regex
  | alt : Regex → Regex → Regex
  | starCls : (Char → Bool) → Regex

/-- Suffixes reachable by consuming a (possibly empty) run of characters
satisfying `p`, in greedy priority order: longest consumed run first.  This
is the backtracking order of a greedy `[c]*` in JavaScript. -/
def starSuffixes (p : Char → Bool) : List Char → List (List Char)
  | [] => [[]]
  | c :: t => if p c then starSuffixes p t ++ [c :: t] else [c :: t]

/-- All suffixes left after matching `r` at the head of the input, in the
backtracking priority order of a JavaScript regex engine: the head of the
result is the suffix of the match the engine reports. -/
def matchR : Regex → List Char → List (List Char)
  | .emp, s => [s]
  | .cls _, [] => []
  | .cls p, c :: t => if p c then [t] else []
  | .seq a b, s => (matchR a s).flatMap (matchR b)
  | .alt a b, s => matchR a s ++ matchR b s
  | .starCls p, s => starSuffixes p s

/-- Leftmost search: try a match at every position left to right and return
`(matched characters, rest after the match)` for the first position where the
pattern matches, as a JavaScript regex search does. -/
def searchCh (r : Regex) : List Char → Option (List Char × List Char)
  | [] =>
    match (matchR r []).head? with
    | some _ => some ([], [])
    | none => none
  | c :: t =>
    match (matchR r (c :: t)).head? with
    | some suf => some ((c :: t).take ((c :: t).length - suf.length), suf)
    | none => searchCh r t

/-- The leftmost match of `r` in `s`, as `String.prototype.match` reports it
(`matches[0]` in the source, for patterns with or without the `g` flag). -/
def firstMatchS (r : Regex) (s : String) : Option String :=
  (searchCh r s.data).map (fun p => String.mk p.1)

/-- Successive non-overlapping leftmost matches, fuelled for termination.
An empty match advances the search position by one character, as the `g`-flag
`lastIndex` rule does in JavaScript. -/
def matchAllCh (r : Regex) : Nat → List Char → List (List Char)
  | 0, _ => []
  | fuel + 1, s =>
    match searchCh r s with
    | none => []
    | some ([], rest) =>
      [] :: (match rest with
             | [] => []
             | _ :: t => matchAllCh r fuel t)
    | some (c :: m, rest) => (c :: m) :: matchAllCh r fuel rest

/-- All matches of `r` in `s`: the array `String.prototype.match` returns for
a `g`-flag pattern (empty when the JavaScript call would return `null`). -/
def matchAllS (r : Regex) (s : String) : List String :=
  (matchAllCh r (s.data.length + 1) s.data).map (fun l => String.mk l)

/-! ## Character classes and pattern constructors -/

/-- JavaScript `\s`. -/
def jsSpace (c : Char) : Bool :=
  c = ' ' || c = '\t' || c = '\n' || c = '\r' || c = '\x0b' || c = '\x0c' ||
  c = '\u00a0' || c = '\u1680' || ('\u2000' ≤ c && c ≤ '\u200a') ||
  c = '\u2028' || c = '\u2029' || c = '\u202f' || c = '\u205f' ||
  c = '\u3000' || c = '\ufeff'

/-- JavaScript `\w`. -/
def jsWord (c : Char) : Bool :=
  ('a' ≤ c && c ≤ 'z') || ('A' ≤ c && c ≤ 'Z') || ('0' ≤ c && c ≤ '9') || c = '_'

/-- JavaScript `.` (without the `s` flag): anything but a line terminator. -/
def jsDot (c : Char) : Bool :=
  !(c = '\n' || c = '\r' || c = '\u2028' || c = '\u2029')

/-- A single character, case-sensitively. -/
def chC (c : Char) : Regex := .cls (fun x => x == c)

/-- A single character under the `i` flag (ASCII simple case folding, which
covers every literal the source's patterns use). -/
def chI (c : Char) : Regex := .cls (fun x => x.toLower == c.toLower)

/-- A case-sensitive literal. -/
def litC (s : String) : Regex := (s.data.map chC).foldr .seq .emp

/-- A case-insensitive literal. -/
def litI (s : String) : Regex := (s.data.map chI).foldr .seq .emp

/-- Character class `[cs]`. -/
def oneOf (cs : List Char) : Regex := .cls (fun x => cs.contains x)

/-- Greedy `+` over a class. -/
def plusCls (p : Char → Bool) : Regex := .seq (.cls p) (.starCls p)

/-- Greedy `?`. -/
def optR (r : Regex) : Regex := .alt r .emp

/-- Ordered alternation of a list of branches (leftmost first). -/
def altList : List Regex → Regex
  | [] => .cls (fun _ => false)
  | [r] => r
  | r :: rs => .alt r (altList rs)

/-- Greedy `{0,n}` over a class. -/
def repMax (p : Char → Bool) : Nat → Regex
  | 0 => .emp
  | n + 1 => .alt (.seq (.cls p) (repMax p n)) .emp

/-- Exactly `n` repetitions. -/
def repExact (r : Regex) : Nat → Regex
  | 0 => .emp
  | n + 1 => .seq r (repExact r n)

/-- The class `['"]`. -/
def quoteCls : Regex := oneOf ['\'', '"']

/-- The class `[^'"]`. -/
def notQuote (c : Char) : Bool := !(c == '\'' || c == '"')

/-! ## The source's patterns

`patterns.secrets`, `patterns.sqlInjection` and `patterns.xss` from
`scanFiles`, and the three patterns of `scanForSecrets`. -/

/-- `/(?:password|secret|key|token|api[_-]?key|aws[_-]?key|private[_-]?key)\s*[=:]\s*['"][^'"]+['"]/gi` -/
def secretPat1 : Regex :=
  .seq (altList
          [litI "password", litI "secret", litI "key", litI "token",
           .seq (litI "api") (.seq (optR (oneOf ['_', '-'])) (litI "key")),
           .seq (litI "aws") (.seq (optR (oneOf ['_', '-'])) (litI "key")),
           .seq (litI "private") (.seq (optR (oneOf ['_', '-'])) (litI "key"))])
    (.seq (.starCls jsSpace)
      (.seq (oneOf ['=', ':'])
        (.seq (.starCls jsSpace)
          (.seq quoteCls (.seq (plusCls notQuote) quoteCls)))))

/-- `/(?:BEGIN\s+(?:RSA|DSA|EC|OPENSSH)\s+PRIVATE\s+KEY)/i` -/
def secretPat2 : Regex :=
  .seq (litI "BEGIN")
    (.seq (plusCls jsSpace)
      (.seq (altList [litI "RSA", litI "DSA", litI "EC", litI "OPENSSH"])
        (.seq (plusCls jsSpace)
          (.seq (litI "PRIVATE") (.seq (plusCls jsSpace) (litI "KEY"))))))

/-- The class `[A-Za-z0-9+/]`. -/
def b64Char (c : Char) : Bool :=
  ('A' ≤ c && c ≤ 'Z') || ('a' ≤ c && c ≤ 'z') || ('0' ≤ c && c ≤ '9') ||
  c = '+' || c = '/'

/-- `/(?:ssh-rsa|ssh-dss|ssh-ed25519)\s+[A-Za-z0-9+/]+[=]{0,3}\s+[^@]+@[^@]+/i` -/
def secretPat3 : Regex :=
  .seq (altList [litI "ssh-rsa", litI "ssh-dss", litI "ssh-ed25519"])
    (.seq (plusCls jsSpace)
      (.seq (plusCls b64Char)
        (.seq (repMax (fun c => c == '=') 3)
          (.seq (plusCls jsSpace)
            (.seq (plusCls (fun c => c != '@'))
              (.seq (chC '@') (plusCls (fun c => c != '@'))))))))

/-- `/(?:SELECT|INSERT|UPDATE|DELETE|DROP|UNION)\s+.*FROM\s+.*WHERE\s+.*['"][^'"]*['"]/gi` -/
def sqlInjectionPat : Regex :=
  .seq (altList
          [litI "SELECT", litI "INSERT", litI "UPDATE",
           litI "DELETE", litI "DROP", litI "UNION"])
    (.seq (plusCls jsSpace)
      (.seq (.starCls jsDot)
        (.seq (litI "FROM")
          (.seq (plusCls jsSpace)
            (.seq (.starCls jsDot)
              (.seq (litI "WHERE")
                (.seq (plusCls jsSpace)
                  (.seq (.starCls jsDot)
                    (.seq quoteCls (.seq (.starCls notQuote) quoteCls))))))))))

/-- `/(?:<script|javascript:|on\w+\s*=)/gi` -/
def xssPat : Regex :=
  altList
    [litI "<script", litI "javascript:",
     .seq (litI "on") (.seq (plusCls jsWord) (.seq (.starCls jsSpace) (chC '=')))]

/-! ## Data model -/

/-- One entry of the repository tree listing returned by
`getRepositoryFiles` (`file.type` is `"blob"` for regular files,
`"tree"` for directories). -/
structure FileEntry where
  type : String
  path : String
deriving DecidableEq

/-- The project metadata the route passes through to the response
(the fields the dashboard reads). -/
structure Project where
  name : String
  description : String
  web_url : String
deriving DecidableEq

/-- One vulnerability object as `scanFiles` pushes it. -/
structure Vuln where
  id : Nat
  title : String
  severity : String
  type : String
  file : String
  line : Nat
  description : String
  impact : String
deriving DecidableEq

/-- The `stats` object the route builds
(`vulnerabilities` is the findings count). -/
structure Stats where
  totalFiles : Nat
  scannedFiles : Nat
  vulnerabilities : Nat
  critical : Nat
  high : Nat
  medium : Nat
  low : Nat
deriving DecidableEq

/-- The external GitLab API as the route observes it through
`GitLabAPI.fetch`: for each endpoint, either the decoded body, or
`Except.error ()` when the call throws (non-2xx response status, network
failure, or a body that fails to decode).  `getProject` can also resolve
with a JSON `null` body, modelled as `Except.ok none`; the route's
`if (!project)` test distinguishes exactly that falsy case. -/
structure GitLabAPI where
  getProject : Except Unit (Option Project)
  getRepositoryFiles : Except Unit (List FileEntry)
  getFileContent : String → Except Unit String

/-- One call the route makes to the repository client. -/
inductive Call where
  | getProject (projectPath : String)
  | getRepositoryFiles (projectPath : String)
  | getFileContent (projectPath filePath : String)
deriving DecidableEq

/-- The HTTP response of the scan route: either the JSON report
(project, stats, vulnerabilities; status 200) or an error status with
its message. -/
inductive ScanResponse where
  | ok (project : Project) (stats : Stats) (vulnerabilities : List Vuln)
  | err (status : Nat) (message : String)
deriving DecidableEq

/-! ## Line locator (`findLineNumber`) -/

/-- JavaScript `String.prototype.includes`: `needle` occurs in the
haystack as a contiguous substring. -/
def includesAux (needle : List Char) : List Char → Bool
  | [] => needle.isPrefixOf []
  | c :: t => needle.isPrefixOf (c :: t) || includesAux needle t

/-- Prepend a character to the first line of a non-empty line list. -/
def consHead (c : Char) : List (List Char) → List (List Char)
  | [] => [[c]]
  | l :: ls => (c :: l) :: ls

/-- JavaScript `content.split('\n')` on the character list. -/
def splitNl : List Char → List (List Char)
  | [] => [[]]
  | c :: t => if c = '\n' then [] :: splitNl t else consHead c (splitNl t)

/-- The indexed loop of `findLineNumber`: return `i + 1` for the first
line (0-based index `i`) that contains the needle, else `1`. -/
def findLineAux (needle : List Char) : List (List Char) → Nat → Nat
  | [], _ => 1
  | l :: ls, i => if includesAux needle l then i + 1 else findLineAux needle ls (i + 1)

/-- `findLineNumber(content, match)` from the source: split on `'\n'`,
return the 1-based index of the first line whose text includes the matched
string, and `1` when no line does. -/
def findLineNumber (content matched : String) : Nat :=
  findLineAux matched.data (splitNl content.data) 0

/-! ## File scanner (`scanFiles`) -/

/-- One detection rule: the compiled pattern together with the constant
fields of the vulnerability object its block pushes.  The pushed `title`
is `titleHead ++ file.path`. -/
structure Rule where
  pattern : Regex
  titleHead : String
  severity : String
  type : String
  description : String
  impact : String

/-- First secret rule of `patterns.secrets`. -/
def secretRule1 : Rule :=
  { pattern := secretPat1
    titleHead := "Potential Secret Exposure in "
    severity := "Critical"
    type := "Secret Exposure"
    description := "Sensitive information or credentials found in code."
    impact := "Potential exposure of sensitive data or credentials." }

/-- Second secret rule of `patterns.secrets`. -/
def secretRule2 : Rule := { secretRule1 with pattern := secretPat2 }

/-- Third secret rule of `patterns.secrets`. -/
def secretRule3 : Rule := { secretRule1 with pattern := secretPat3 }

/-- The single `patterns.sqlInjection` rule. -/
def sqlInjectionRule : Rule :=
  { pattern := sqlInjectionPat
    titleHead := "Potential SQL Injection in "
    severity := "High"
    type := "Code Vulnerability"
    description := "Unsanitized SQL query detected."
    impact := "Potential database compromise." }

/-- The single `patterns.xss` rule. -/
def xssRule : Rule :=
  { pattern := xssPat
    titleHead := "Potential XSS Vulnerability in "
    severity := "High"
    type := "Code Vulnerability"
    description := "Potential cross-site scripting vulnerability detected."
    impact := "Potential client-side code execution." }

/-- The three `for (const pattern of …)` loops of `scanFiles`, flattened
into the one ordered list of rule blocks they execute: the three secret
patterns, then SQL injection, then XSS. -/
def rules : List Rule :=
  [secretRule1, secretRule2, secretRule3, sqlInjectionRule, xssRule]

/-- One rule block of `scanFiles`: `const matches = content.match(pattern);
if (matches) vulnerabilities.push({ id: vulnerabilities.length + 1, …,
line: findLineNumber(content, matches[0]), … })`. -/
def pushRule (path content : String) (acc : List Vuln) (r : Rule) : List Vuln :=
  match firstMatchS r.pattern content with
  | some m =>
    acc ++ [{ id := acc.length + 1
              title := r.titleHead ++ path
              severity := r.severity
              type := r.type
              file := path
              line := findLineNumber content m
              description := r.description
              impact := r.impact }]
  | none => acc

/-- The body of the `for (const file of files)` loop: skip non-blob
entries; fetch the content, and on a thrown fetch/decode error log and
continue (the `catch` branch leaves the accumulator unchanged). -/
def scanOneFile (getContent : String → Except Unit String)
    (acc : List Vuln) (f : FileEntry) : List Vuln :=
  if f.type == "blob" then
    match getContent f.path with
    | .ok content => rules.foldl (pushRule f.path content) acc
    | .error _ => acc
  else acc

/-- `scanFiles(files, gitlabApi, projectPath)`: fold the per-file loop over
the listing, starting from the empty `vulnerabilities` array. -/
def scanFiles (files : List FileEntry) (getContent : String → Except Unit String) :
    List Vuln :=
  files.foldl (scanOneFile getContent) []

/-- The `stats` object the route builds after scanning: both file counters
are `files.length`, and the per-severity counters filter the
vulnerability list. -/
def mkStats (files : List FileEntry) (vulns : List Vuln) : Stats :=
  { totalFiles := files.length
    scannedFiles := files.length
    vulnerabilities := vulns.length
    critical := (vulns.filter (fun v => v.severity == "Critical")).length
    high := (vulns.filter (fun v => v.severity == "High")).length
    medium := (vulns.filter (fun v => v.severity == "Medium")).length
    low := (vulns.filter (fun v => v.severity == "Low")).length }

/-! ## The scan route (`POST /api/scan`) -/

/-- The route handler.  An absent or empty `projectPath`/`token` field of
the request body is JavaScript-falsy, modelled as the empty string.  Any
exception thrown after the input check (here: a failing `getProject` or
`getRepositoryFiles` call) reaches the outer `catch` and yields the 500
response; a `getProject` that resolves with a falsy (null) body yields the
404 response. -/
def POST (projectPath token : String) (gl : GitLabAPI) : ScanResponse :=
  if projectPath = "" ∨ token = "" then
    .err 400 "Project path and token are required"
  else
    match gl.getProject with
    | .error _ => .err 500 "Failed to scan repository"
    | .ok none => .err 404 "Repository not found"
    | .ok (some project) =>
      match gl.getRepositoryFiles with
      | .error _ => .err 500 "Failed to scan repository"
      | .ok files =>
        .ok project (mkStats files (scanFiles files gl.getFileContent))
          (scanFiles files gl.getFileContent)

/-- The calls the handler makes to the repository client, in order: none
before the input check passes, then `getProject`, then (when the project
resolved) `getRepositoryFiles`, then one `getFileContent` per blob entry. -/
def POSTcalls (projectPath token : String) (gl : GitLabAPI) : List Call :=
  if projectPath = "" ∨ token = "" then []
  else
    match gl.getProject with
    | .error _ => [.getProject projectPath]
    | .ok none => [.getProject projectPath]
    | .ok (some _) =>
      match gl.getRepositoryFiles with
      | .error _ => [.getProject projectPath, .getRepositoryFiles projectPath]
      | .ok files =>
        [.getProject projectPath, .getRepositoryFiles projectPath] ++
          (files.filter (fun f => f.type == "blob")).map
            (fun f => .getFileContent projectPath f.path)

/-! ## The secret scanner of `utils/scanner.ts` (`scanForSecrets`) -/

/-- `/AKIA[0-9A-Z]{16}/g` -/
def awsKeyPat : Regex :=
  .seq (litC "AKIA")
    (repExact (.cls (fun c => ('0' ≤ c && c ≤ '9') || ('A' ≤ c && c ≤ 'Z'))) 16)

/-- `/ghp_[0-9a-zA-Z]{36}/g` -/
def githubTokenPat : Regex :=
  .seq (litC "ghp_")
    (repExact (.cls (fun c =>
      ('0' ≤ c && c ≤ '9') || ('a' ≤ c && c ≤ 'z') || ('A' ≤ c && c ≤ 'Z'))) 36)

/-- `/"secret"\s*:\s*"[^"]+"/g` -/
def jsonSecretPat : Regex :=
  .seq (litC "\"secret\"")
    (.seq (.starCls jsSpace)
      (.seq (chC ':')
        (.seq (.starCls jsSpace)
          (.seq (chC '"') (.seq (plusCls (fun c => c != '"')) (chC '"'))))))

/-- The `patterns` array of `scanForSecrets`, in source order. -/
def secretScanPatterns : List Regex := [awsKeyPat, githubTokenPat, jsonSecretPat]

/-- `code.match(regex)` for a `g`-flag pattern: `null` (none) when there is
no match, else the non-empty array of all matches. -/
def jsMatchG (r : Regex) (code : String) : Option (List String) :=
  match matchAllS r code with
  | [] => none
  | m :: ms => some (m :: ms)

/-- The `forEach` body of `scanForSecrets`: `const matches =
code.match(regex); if (matches) findings.push(...matches)`. -/
def scanStep (code : String) (findings : List String) (re : Regex) : List String :=
  match jsMatchG re code with
  | some ms => findings ++ ms
  | none => findings

/-- `scanForSecrets(code)`: for each pattern in order, append all its
matches (when any) to the findings array. -/
def scanForSecrets (code : String) : List String :=
  secretScanPatterns.foldl (scanStep code) []

/-! ## Auxiliary specification-side definitions and concrete scenarios -/

/-- Joining lines back with `'\n'` separators: the left inverse of
`splitNl`, used to state what splitting on the line-feed character means. -/
def joinNl : List (List Char) → List Char
  | [] => []
  | [l] => l
  | l :: l' :: ls => l ++ '\n' :: joinNl (l' :: ls)

/-- Project metadata used by the concrete scenarios. -/
def proj0 : Project :=
  { name := "demo", description := "demo project", web_url := "https://gitlab.com/demo" }

/-- The file content of concrete scenario 2 of the specification. -/
def dbContent : String := "SELECT * FROM users WHERE name = 'admin'"

/-- A repository with the single file `db.sql` holding `dbContent`. -/
def glDb : GitLabAPI :=
  { getProject := .ok (some proj0)
    getRepositoryFiles := .ok [{ type := "blob", path := "db.sql" }]
    getFileContent := fun p => if p = "db.sql" then .ok dbContent else .error () }

/-- The vulnerability object the scan produces for `db.sql`. -/
def sqlVuln : Vuln :=
  { id := 1
    title := "Potential SQL Injection in db.sql"
    severity := "High"
    type := "Code Vulnerability"
    file := "db.sql"
    line := 1
    description := "Unsanitized SQL query detected."
    impact := "Potential database compromise." }

/-- A repository with one blob whose content fetch fails to decode. -/
def glBin : GitLabAPI :=
  { getProject := .ok (some proj0)
    getRepositoryFiles := .ok [{ type := "blob", path := "bin.dat" }]
    getFileContent := fun _ => .error () }

/-- A repository whose listing holds a single directory (non-blob) entry. -/
def glDir : GitLabAPI :=
  { getProject := .ok (some proj0)
    getRepositoryFiles := .ok [{ type := "tree", path := "src" }]
    getFileContent := fun _ => .error () }

/-- A GitLab server that answers `getProject` with a non-2xx status
(the real shape of "no such project": GitLab returns 404, `response.ok`
is false, `GitLabAPI.fetch` throws). -/
def glNotFound : GitLabAPI :=
  { getProject := .error ()
    getRepositoryFiles := .error ()
    getFileContent := fun _ => .error () }

/-- A GitLab server whose `getProject` resolves with a JSON `null` body —
the only situation in which the route's `if (!project)` test fires. -/
def glNullProject : GitLabAPI :=
  { getProject := .ok none
    getRepositoryFiles := .error ()
    getFileContent := fun _ => .error () }

/-! ## Helper lemmas -/

/-- The substring test of `includesAux` is infix occurrence. -/
theorem includesAux_iff_infix (n l : List Char) :
    includesAux n l = true ↔ n <:+: l := by
  induction l with
  | nil =>
    simp only [includesAux, List.isPrefixOf_iff_prefix]
    exact ⟨fun h => h.isInfix, fun h => List.eq_nil_of_infix_nil h ▸ List.nil_prefix⟩
  | cons c t ih =>
    simp only [includesAux, Bool.or_eq_true, List.isPrefixOf_iff_prefix, ih,
      List.infix_cons_iff]

/-- `splitNl` never returns the empty list of lines. -/
theorem splitNl_ne_nil (s : List Char) : splitNl s ≠ [] := by
  induction s with
  | nil => simp [splitNl]
  | cons c t ih =>
    simp only [splitNl]
    split
    · simp
    · cases splitNl t with
      | nil => simp [consHead]
      | cons l ls => simp [consHead]

/-- Joining the split lines with `'\n'` restores the content: `splitNl`
splits exactly on the line-feed character. -/
theorem joinNl_splitNl (s : List Char) : joinNl (splitNl s) = s := by
  induction s with
  | nil => rfl
  | cons c t ih =>
    simp only [splitNl]
    by_cases hc : c = '\n'
    · subst hc
      rw [if_pos rfl]
      cases h : splitNl t with
      | nil => exact absurd h (splitNl_ne_nil t)
      | cons l ls =>
        show '\n' :: joinNl (l :: ls) = '\n' :: t
        rw [← h, ih]
    · rw [if_neg hc]
      cases h : splitNl t with
      | nil => exact absurd h (splitNl_ne_nil t)
      | cons l ls =>
        rw [h] at ih
        cases ls with
        | nil =>
          show c :: l = c :: t
          rw [show l = t from ih]
        | cons l2 ls2 =>
          show c :: joinNl (l :: l2 :: ls2) = c :: t
          rw [ih]

/-- No produced line contains a line-feed character. -/
theorem splitNl_no_newline (s : List Char) : ∀ l ∈ splitNl s, '\n' ∉ l := by
  induction s with
  | nil =>
    intro l hl
    simp only [splitNl, List.mem_singleton] at hl
    subst hl
    simp
  | cons c t ih =>
    intro l hl
    simp only [splitNl] at hl
    by_cases hc : c = '\n'
    · subst hc
      rw [if_pos rfl] at hl
      rcases List.mem_cons.mp hl with rfl | hl'
      · simp
      · exact ih l hl'
    · rw [if_neg hc] at hl
      cases h : splitNl t with
      | nil => exact absurd h (splitNl_ne_nil t)
      | cons l0 ls =>
        rw [h] at hl
        have ih' := fun l hml => ih l (h ▸ hml)
        rcases List.mem_cons.mp hl with rfl | hl'
        · intro hmem
          rcases List.mem_cons.mp hmem with hceq | h2
          · exact hc hceq.symm
          · exact ih' l0 (List.mem_cons_self l0 ls) h2
        · exact ih' l (List.mem_cons_of_mem l0 hl')

/-- The indexed loop of `findLineNumber` computes `findIdx?` of the
substring test, shifted to 1-based, with the not-found fallback `1`. -/
theorem findLineAux_findIdx (n : List Char) (ls : List (List Char)) (i : Nat) :
    findLineAux n ls i =
      match ls.findIdx? (fun l => includesAux n l) i with
      | some j => j + 1
      | none => 1 := by
  induction ls generalizing i with
  | nil => rfl
  | cons l ls ih =>
    simp only [findLineAux, List.findIdx?]
    by_cases h : includesAux n l
    · simp [h]
    · simp only [h, Bool.false_eq_true, if_false, ite_false]
      exact ih (i + 1)

/-- A vulnerability present after one rule block was already present, or
carries that rule's severity and the scanned file's path. -/
theorem pushRule_sub {v : Vuln} {path content : String} {acc : List Vuln} {r : Rule}
    (h : v ∈ pushRule path content acc r) :
    v ∈ acc ∨ (v.severity = r.severity ∧ v.file = path) := by
  unfold pushRule at h
  cases hm : firstMatchS r.pattern content with
  | none => rw [hm] at h; exact Or.inl h
  | some m =>
    rw [hm] at h
    rcases List.mem_append.mp h with h1 | h2
    · exact Or.inl h1
    · rcases List.mem_singleton.mp h2 with rfl
      exact Or.inr ⟨rfl, rfl⟩

/-- A vulnerability present after all rule blocks ran on one file was
already present, or comes from one of the rules. -/
theorem rulesFoldl_sub {v : Vuln} {path content : String} {rs : List Rule} :
    ∀ acc : List Vuln, v ∈ rs.foldl (pushRule path content) acc →
      v ∈ acc ∨ ∃ r ∈ rs, v.severity = r.severity ∧ v.file = path := by
  induction rs with
  | nil => exact fun acc h => Or.inl h
  | cons r rs ih =>
    intro acc h
    rw [List.foldl_cons] at h
    rcases ih (pushRule path content acc r) h with h1 | ⟨r', hr', hs⟩
    · rcases pushRule_sub h1 with h2 | h3
      · exact Or.inl h2
      · exact Or.inr ⟨r, List.mem_cons_self r rs, h3⟩
    · exact Or.inr ⟨r', List.mem_cons_of_mem r hr', hs⟩

/-- A vulnerability present after the file loop was already present, or
comes from a rule applied to a file whose content fetch succeeded. -/
theorem scanFilesAux_sub {v : Vuln} {getContent : String → Except Unit String}
    {files : List FileEntry} :
    ∀ acc : List Vuln, v ∈ files.foldl (scanOneFile getContent) acc →
      v ∈ acc ∨
        ((∃ r ∈ rules, v.severity = r.severity) ∧
          ∃ c, getContent v.file = Except.ok c) := by
  induction files with
  | nil => exact fun acc h => Or.inl h
  | cons f fs ih =>
    intro acc h
    rw [List.foldl_cons] at h
    rcases ih (scanOneFile getContent acc f) h with h1 | h2
    · unfold scanOneFile at h1
      split at h1
      · cases hc : getContent f.path with
        | ok content =>
          rw [hc] at h1
          rcases rulesFoldl_sub acc h1 with ha | ⟨r, hr, hsev, hfile⟩
          · exact Or.inl ha
          · exact Or.inr ⟨⟨r, hr, hsev⟩, ⟨content, by rw [hfile]; exact hc⟩⟩
        | error e => rw [hc] at h1; exact Or.inl h1
      · exact Or.inl h1
    · exact Or.inr h2

/-- Every vulnerability `scanFiles` emits comes from one of the five rules
and from a file whose content fetch succeeded. -/
theorem scanFiles_sub {v : Vuln} {files : List FileEntry}
    {getContent : String → Except Unit String} (h : v ∈ scanFiles files getContent) :
    (∃ r ∈ rules, v.severity = r.severity) ∧
      ∃ c, getContent v.file = Except.ok c := by
  rcases scanFilesAux_sub [] h with h0 | h1
  · cases h0
  · exact h1

/-- Every rule of the rule set has severity `Critical` or `High`. -/
theorem rules_severity {r : Rule} (hr : r ∈ rules) :
    r.severity = "Critical" ∨ r.severity = "High" := by
  simp only [rules, List.mem_cons, List.not_mem_nil, or_false] at hr
  rcases hr with rfl | rfl | rfl | rfl | rfl
  · exact Or.inl rfl
  · exact Or.inl rfl
  · exact Or.inl rfl
  · exact Or.inr rfl
  · exact Or.inr rfl

/-- Every vulnerability the file scanner emits has severity `Critical` or
`High`. -/
theorem scanFiles_severity {v : Vuln} {files : List FileEntry}
    {getContent : String → Except Unit String} (h : v ∈ scanFiles files getContent) :
    v.severity = "Critical" ∨ v.severity = "High" := by
  rcases (scanFiles_sub h).1 with ⟨r, hr, hsev⟩
  rcases rules_severity hr with h1 | h1
  · exact Or.inl (hsev.trans h1)
  · exact Or.inr (hsev.trans h1)

/-- On a list whose severities are all `Critical` or `High`, the Critical
and High filters partition the list, and the Medium and Low filters are
empty. -/
theorem severity_filters (l : List Vuln)
    (h : ∀ v ∈ l, v.severity = "Critical" ∨ v.severity = "High") :
    (l.filter (fun v => v.severity == "Critical")).length +
        (l.filter (fun v => v.severity == "High")).length = l.length ∧
      (l.filter (fun v => v.severity == "Medium")).length = 0 ∧
      (l.filter (fun v => v.severity == "Low")).length = 0 := by
  induction l with
  | nil => exact ⟨rfl, rfl, rfl⟩
  | cons v l ih =>
    obtain ⟨ih1, ih2, ih3⟩ := ih (fun w hw => h w (List.mem_cons_of_mem v hw))
    rcases h v (List.mem_cons_self v l) with hv | hv
    · rw [List.filter_cons_of_pos (by rw [hv]; decide),
        List.filter_cons_of_neg (by rw [hv]; exact Bool.false_ne_true),
        List.filter_cons_of_neg (by rw [hv]; exact Bool.false_ne_true),
        List.filter_cons_of_neg (by rw [hv]; exact Bool.false_ne_true)]
      exact ⟨by simp only [List.length_cons]; omega, ih2, ih3⟩
    · rw [List.filter_cons_of_neg (by rw [hv]; exact Bool.false_ne_true),
        List.filter_cons_of_pos (by rw [hv]; decide),
        List.filter_cons_of_neg (by rw [hv]; exact Bool.false_ne_true),
        List.filter_cons_of_neg (by rw [hv]; exact Bool.false_ne_true)]
      exact ⟨by simp only [List.length_cons]; omega, ih2, ih3⟩

/-- Inversion of a 200 response: the route reached the success branch, so
the listing resolved, the vulnerabilities are `scanFiles` of it, and the
stats are `mkStats`. -/
theorem POST_ok_inv {projectPath token : String} {gl : GitLabAPI}
    {proj : Project} {stats : Stats} {vulns : List Vuln}
    (h : POST projectPath token gl = ScanResponse.ok proj stats vulns) :
    ∃ files, gl.getRepositoryFiles = Except.ok files ∧
      vulns = scanFiles files gl.getFileContent ∧
      stats = mkStats files vulns := by
  unfold POST at h
  split at h
  · exact ScanResponse.noConfusion h
  · split at h
    · exact ScanResponse.noConfusion h
    · exact ScanResponse.noConfusion h
    · split at h
      · exact ScanResponse.noConfusion h
      · next files heq =>
        obtain ⟨h1, h2, h3⟩ := ScanResponse.ok.inj h
        refine ⟨files, heq, h3.symm, ?_⟩
        rw [← h2, ← h3]

/-- The shape of the 200 response on a valid request against a resolving
server. -/
theorem POST_ok_shape {projectPath token : String} {gl : GitLabAPI} {proj : Project}
    {files : List FileEntry}
    (hpath : projectPath ≠ "") (htok : token ≠ "")
    (hproj : gl.getProject = Except.ok (some proj))
    (hfiles : gl.getRepositoryFiles = Except.ok files) :
    POST projectPath token gl =
      ScanResponse.ok proj (mkStats files (scanFiles files gl.getFileContent))
        (scanFiles files gl.getFileContent) := by
  unfold POST
  rw [if_neg (fun hc => hc.elim hpath htok), hproj, hfiles]

/-- The head of the `g`-flag match list is the leftmost match. -/
theorem matchAllS_head {r : Regex} {s m : String} {rest : List String}
    (h : matchAllS r s = m :: rest) : firstMatchS r s = some m := by
  unfold matchAllS matchAllCh at h
  unfold firstMatchS
  cases hs : searchCh r s.data with
  | none => rw [hs] at h; simp at h
  | some pr =>
    obtain ⟨mc, restc⟩ := pr
    rw [hs] at h
    cases mc with
    | nil =>
      simp only [List.map_cons, List.cons.injEq] at h
      exact congrArg some h.1
    | cons c cs =>
      simp only [List.map_cons, List.cons.injEq] at h
      exact congrArg some h.1

/-- One `forEach` step of `scanForSecrets` appends exactly the matches of
its pattern (the `null` guard only skips an empty append). -/
theorem scanStep_eq (code : String) (fs : List String) (r : Regex) :
    scanStep code fs r = fs ++ matchAllS r code := by
  unfold scanStep jsMatchG
  cases h : matchAllS r code with
  | nil => simp
  | cons m ms => rfl

/-! ## The claims -/

/-- C1, counterexample.  The claim says a blob whose content fetch fails to
decode is NOT counted in `scannedFiles`.  On the repository `glBin` — one
blob `bin.dat` whose fetch throws — the route answers 200 with
`scannedFiles = 1`, not `0`: the code sets `scannedFiles = files.length`
regardless of per-file failures. -/
theorem c1_counterexample :
    POST "group/app" "tok" glBin = ScanResponse.ok proj0 ⟨1, 1, 0, 0, 0, 0, 0⟩ [] ∧
      (Stats.mk 1 1 0 0 0 0 0).scannedFiles ≠ 0 :=
  ⟨by decide, by decide⟩

/-- C1, amended.  A blob whose content fetch throws yields zero Findings
for that file and no run-level error (the route still answers 200), and the
file is counted in `totalFiles` AND in `scannedFiles`: the code sets both
counters to the length of the full file listing. -/
theorem c1_decode_failure (projectPath token : String) (gl : GitLabAPI)
    (proj : Project) (files : List FileEntry) (p : String)
    (hpath : projectPath ≠ "") (htok : token ≠ "")
    (hproj : gl.getProject = Except.ok (some proj))
    (hfiles : gl.getRepositoryFiles = Except.ok files)
    (hmem : FileEntry.mk "blob" p ∈ files)
    (hfail : gl.getFileContent p = Except.error ()) :
    POST projectPath token gl =
      ScanResponse.ok proj (mkStats files (scanFiles files gl.getFileContent))
        (scanFiles files gl.getFileContent) ∧
      (∀ v ∈ scanFiles files gl.getFileContent, v.file ≠ p) ∧
      (mkStats files (scanFiles files gl.getFileContent)).totalFiles = files.length ∧
      (mkStats files (scanFiles files gl.getFileContent)).scannedFiles = files.length := by
  refine ⟨POST_ok_shape hpath htok hproj hfiles, ?_, rfl, rfl⟩
  intro v hv hvp
  rcases (scanFiles_sub hv).2 with ⟨c, hc⟩
  rw [hvp, hfail] at hc
  exact Except.noConfusion hc

/-- C1, witness: the amended statement at the concrete repository `glBin`. -/
theorem c1_witness :
    POST "group/app" "tok" glBin =
      ScanResponse.ok proj0
        (mkStats [FileEntry.mk "blob" "bin.dat"]
          (scanFiles [FileEntry.mk "blob" "bin.dat"] glBin.getFileContent))
        (scanFiles [FileEntry.mk "blob" "bin.dat"] glBin.getFileContent) ∧
      (∀ v ∈ scanFiles [FileEntry.mk "blob" "bin.dat"] glBin.getFileContent,
        v.file ≠ "bin.dat") ∧
      (mkStats [FileEntry.mk "blob" "bin.dat"]
          (scanFiles [FileEntry.mk "blob" "bin.dat"] glBin.getFileContent)).totalFiles =
        [FileEntry.mk "blob" "bin.dat"].length ∧
      (mkStats [FileEntry.mk "blob" "bin.dat"]
          (scanFiles [FileEntry.mk "blob" "bin.dat"] glBin.getFileContent)).scannedFiles =
        [FileEntry.mk "blob" "bin.dat"].length :=
  c1_decode_failure "group/app" "tok" glBin proj0 [FileEntry.mk "blob" "bin.dat"]
    "bin.dat" (by decide) (by decide) rfl rfl
    (List.mem_cons_self (FileEntry.mk "blob" "bin.dat") []) rfl

/-- C2, counterexample.  The claim says `totalFiles` equals the number of
blob entries.  On the repository `glDir` — a listing with one directory
(`tree`) entry and no blob — the route reports `totalFiles = 1` although
the listing holds zero blobs: the code counts every entry, directories
included, in both counters. -/
theorem c2_counterexample :
    POST "group/app" "tok" glDir = ScanResponse.ok proj0 ⟨1, 1, 0, 0, 0, 0, 0⟩ [] ∧
      (([FileEntry.mk "tree" "src"]).filter (fun f => f.type == "blob")).length = 0 ∧
      (Stats.mk 1 1 0 0 0 0 0).totalFiles ≠ 0 :=
  ⟨by decide, by decide, by decide⟩

/-- C2, amended.  `stats.totalFiles` equals the number of ALL entries of
the listing (blobs and directories alike), and `stats.scannedFiles` equals
the same number; non-blob entries are counted in both, although they are
never fetched or scanned. -/
theorem c2_total_files (projectPath token : String) (gl : GitLabAPI)
    (proj : Project) (files : List FileEntry)
    (hpath : projectPath ≠ "") (htok : token ≠ "")
    (hproj : gl.getProject = Except.ok (some proj))
    (hfiles : gl.getRepositoryFiles = Except.ok files) :
    POST projectPath token gl =
      ScanResponse.ok proj (mkStats files (scanFiles files gl.getFileContent))
        (scanFiles files gl.getFileContent) ∧
      (mkStats files (scanFiles files gl.getFileContent)).totalFiles = files.length ∧
      (mkStats files (scanFiles files gl.getFileContent)).scannedFiles = files.length :=
  ⟨POST_ok_shape hpath htok hproj hfiles, rfl, rfl⟩

/-- C2, witness: the amended statement at the concrete repository `glDir`. -/
theorem c2_witness :
    POST "group/app" "tok" glDir =
      ScanResponse.ok proj0
        (mkStats [FileEntry.mk "tree" "src"]
          (scanFiles [FileEntry.mk "tree" "src"] glDir.getFileContent))
        (scanFiles [FileEntry.mk "tree" "src"] glDir.getFileContent) ∧
      (mkStats [FileEntry.mk "tree" "src"]
          (scanFiles [FileEntry.mk "tree" "src"] glDir.getFileContent)).totalFiles =
        [FileEntry.mk "tree" "src"].length ∧
      (mkStats [FileEntry.mk "tree" "src"]
          (scanFiles [FileEntry.mk "tree" "src"] glDir.getFileContent)).scannedFiles =
        [FileEntry.mk "tree" "src"].length :=
  c2_total_files "group/app" "tok" glDir proj0 [FileEntry.mk "tree" "src"]
    (by decide) (by decide) rfl rfl

/-- C3: in every 200 response, `stats.vulnerabilities` equals the length of
the findings list and equals `critical + high + medium + low`. -/
theorem c3_findings_count (projectPath token : String) (gl : GitLabAPI)
    (proj : Project) (stats : Stats) (vulns : List Vuln)
    (h : POST projectPath token gl = ScanResponse.ok proj stats vulns) :
    stats.vulnerabilities = vulns.length ∧
      stats.vulnerabilities = stats.critical + stats.high + stats.medium + stats.low := by
  obtain ⟨files, hfiles, hv, hs⟩ := POST_ok_inv h
  subst hv
  subst hs
  refine ⟨rfl, ?_⟩
  obtain ⟨h1, h2, h3⟩ :=
    severity_filters (scanFiles files gl.getFileContent)
      (fun v hv => scanFiles_severity hv)
  show (scanFiles files gl.getFileContent).length =
    ((scanFiles files gl.getFileContent).filter (fun v => v.severity == "Critical")).length +
      ((scanFiles files gl.getFileContent).filter (fun v => v.severity == "High")).length +
      ((scanFiles files gl.getFileContent).filter (fun v => v.severity == "Medium")).length +
      ((scanFiles files gl.getFileContent).filter (fun v => v.severity == "Low")).length
  omega

/-- C3, witness: the statement at the concrete repository `glDb`. -/
theorem c3_witness :
    (Stats.mk 1 1 1 0 1 0 0).vulnerabilities = [sqlVuln].length ∧
      (Stats.mk 1 1 1 0 1 0 0).vulnerabilities =
        (Stats.mk 1 1 1 0 1 0 0).critical + (Stats.mk 1 1 1 0 1 0 0).high +
          (Stats.mk 1 1 1 0 1 0 0).medium + (Stats.mk 1 1 1 0 1 0 0).low :=
  c3_findings_count "group/app" "tok" glDb proj0 ⟨1, 1, 1, 0, 1, 0, 0⟩ [sqlVuln]
    (by decide)

/-- C4: when a rule's pattern has two or more matches in a file's content
(`matchAllS` lists them), the rule's block still appends exactly one
vulnerability — never two — and its line is located from the first match. -/
theorem c4_first_match_only (r : Rule) (path content : String) (acc : List Vuln)
    (m : String) (rest : List String)
    (hr : r ∈ rules)
    (hmatches : matchAllS r.pattern content = m :: rest)
    (htwo : rest ≠ []) :
    pushRule path content acc r =
      acc ++ [{ id := acc.length + 1
                title := r.titleHead ++ path
                severity := r.severity
                type := r.type
                file := path
                line := findLineNumber content m
                description := r.description
                impact := r.impact }] := by
  unfold pushRule
  rw [matchAllS_head hmatches]

/-- C4, witness: the XSS rule on a file holding `<script>` twice. -/
theorem c4_witness :
    pushRule "app.html" "<script><script>" [] xssRule =
      [] ++ [{ id := List.length ([] : List Vuln) + 1
               title := xssRule.titleHead ++ "app.html"
               severity := xssRule.severity
               type := xssRule.type
               file := "app.html"
               line := findLineNumber "<script><script>" "<script"
               description := xssRule.description
               impact := xssRule.impact }] :=
  c4_first_match_only xssRule "app.html" "<script><script>" [] "<script" ["<script"]
    (by simp [rules]) (by decide) (by decide)

/-- C5: `findLineNumber` splits the content on the line-feed character
(`splitNl` joins back with `'\n'` and produces lines free of `'\n'`) and
returns the 1-based index of the first line containing the matched text as
a substring (`includesAux` is exactly infix occurrence), with fallback `1`
when no line contains it. -/
theorem c5_line_locator (content matched : String) :
    (findLineNumber content matched =
      match (splitNl content.data).findIdx? (fun l => includesAux matched.data l) with
      | some i => i + 1
      | none => 1) ∧
      (∀ l : List Char, includesAux matched.data l = true ↔
        ∃ u w, u ++ matched.data ++ w = l) ∧
      joinNl (splitNl content.data) = content.data ∧
      (∀ l ∈ splitNl content.data, '\n' ∉ l) := by
  refine ⟨?_, ?_, joinNl_splitNl content.data, splitNl_no_newline content.data⟩
  · exact findLineAux_findIdx matched.data (splitNl content.data) 0
  · exact fun l => includesAux_iff_infix matched.data l

/-- C6: when the repository client reports no such project, GitLab answers
the `getProject` request with a 404 status, `response.ok` is false and
`GitLabAPI.fetch` throws, so the route's outer catch answers
500 "Failed to scan repository" — not the dedicated 404 "Repository not
found", which is reachable only if `getProject` resolves with a JSON
`null` body.  No partial report is produced in either case. -/
theorem c6_repository_not_found_bug :
    POST "group/app" "tok" glNotFound = ScanResponse.err 500 "Failed to scan repository" ∧
      POSTcalls "group/app" "tok" glNotFound = [Call.getProject "group/app"] ∧
      POST "group/app" "tok" glNullProject = ScanResponse.err 404 "Repository not found" :=
  ⟨by decide, by decide, by decide⟩

/-- C7: a missing (empty) project path or token makes the route answer
400 "Project path and token are required" and make no call at all to the
repository client. -/
theorem c7_invalid_input (projectPath token : String) (gl : GitLabAPI)
    (h : projectPath = "" ∨ token = "") :
    POST projectPath token gl = ScanResponse.err 400 "Project path and token are required" ∧
      POSTcalls projectPath token gl = [] := by
  constructor
  · unfold POST
    rw [if_pos h]
  · unfold POSTcalls
    rw [if_pos h]

/-- C7, witness: an empty token against the concrete server `glNotFound`. -/
theorem c7_witness :
    POST "group/app" "" glNotFound = ScanResponse.err 400 "Project path and token are required" ∧
      POSTcalls "group/app" "" glNotFound = [] :=
  c7_invalid_input "group/app" "" glNotFound (Or.inr rfl)

/-- C8, counterexample.  Scanning the blob `db.sql` with content
`SELECT * FROM users WHERE name = 'admin'` yields exactly one finding with
severity `High` and line `1`, but its category field (`type`) is the string
`"Code Vulnerability"`, not the token `"SqlInjection"` the claim names. -/
theorem c8_counterexample :
    scanFiles [FileEntry.mk "blob" "db.sql"] glDb.getFileContent = [sqlVuln] ∧
      sqlVuln.type = "Code Vulnerability" ∧
      sqlVuln.type ≠ "SqlInjection" ∧
      sqlVuln.severity = "High" ∧ sqlVuln.line = 1 :=
  ⟨by decide, rfl, by decide, rfl, rfl⟩

/-- C8, amended.  The scan of that repository produces exactly one Finding:
severity `High`, line `1`, `type` `"Code Vulnerability"` and title
`"Potential SQL Injection in db.sql"` (the SQL-injection category shows in
the title, not in a `SqlInjection` enum token). -/
theorem c8_sql_injection_scenario :
    POST "group/app" "tok" glDb = ScanResponse.ok proj0 ⟨1, 1, 1, 0, 1, 0, 0⟩ [sqlVuln] := by
  decide

/-- C9: every finding of a 200 response has severity `Critical` or `High`,
so the `medium` and `low` counters are always 0. -/
theorem c9_severities (projectPath token : String) (gl : GitLabAPI)
    (proj : Project) (stats : Stats) (vulns : List Vuln)
    (h : POST projectPath token gl = ScanResponse.ok proj stats vulns) :
    (∀ v ∈ vulns, v.severity = "Critical" ∨ v.severity = "High") ∧
      stats.medium = 0 ∧ stats.low = 0 := by
  obtain ⟨files, hfiles, hv, hs⟩ := POST_ok_inv h
  subst hv
  subst hs
  obtain ⟨-, h2, h3⟩ :=
    severity_filters (scanFiles files gl.getFileContent)
      (fun v hv => scanFiles_severity hv)
  exact ⟨fun v hv => scanFiles_severity hv, h2, h3⟩

/-- C9, witness: the statement at the concrete repository `glDb`. -/
theorem c9_witness :
    (∀ v ∈ [sqlVuln], v.severity = "Critical" ∨ v.severity = "High") ∧
      (Stats.mk 1 1 1 0 1 0 0).medium = 0 ∧ (Stats.mk 1 1 1 0 1 0 0).low = 0 :=
  c9_severities "group/app" "tok" glDb proj0 ⟨1, 1, 1, 0, 1, 0, 0⟩ [sqlVuln]
    (by decide)

/-- C10: `scanForSecrets` returns exactly the concatenation, in fixed
pattern order (AWS access key, GitHub token, JSON `"secret"` field), of all
matches of each pattern; when no pattern matches, every block is empty, so
the result is the empty list.  As a total function it never throws. -/
theorem c10_scanForSecrets (code : String) :
    scanForSecrets code =
      matchAllS awsKeyPat code ++ matchAllS githubTokenPat code ++
        matchAllS jsonSecretPat code := by
  show scanStep code (scanStep code (scanStep code [] awsKeyPat) githubTokenPat)
      jsonSecretPat = _
  rw [scanStep_eq, scanStep_eq, scanStep_eq]
  simp [List.append_assoc]

end Gitleaker
